import Mathlib

/-!
Verification of the terminal 3D renderer (rust-sloth fork).

This file shallowly embeds the program's command-line frontend
(`src/inputs.rs`) and its frame loop (`src/main.rs`) in Lean 4.

Modelling conventions:
* `f32` arithmetic is idealised as exact rational arithmetic (`ℚ`).
  Decimal literals of the source are read as exact rationals, and the
  constant `f32::consts::PI` is modelled as its exact rational value
  `13176795 / 4194304` (the IEEE-754 single-precision value `0x40490FDB`),
  named `f32pi` below.
* The repository's `context.rs`, `geometry.rs` and `rasterizer.rs` are not
  part of the sources provided; the definitions standing in for them are
  modelled from the specification and are marked as such in their doc
  comments.  The frame loop itself only invokes them, so the loop is
  embedded as a trace semantics: each call the loop performs is recorded
  as an event (`Ev` below), and the state the loop itself mutates
  (turntable scalars, frame counter, context dimensions) is threaded
  explicitly.
* Rust's `panic!` (reached through `Result::unwrap`) is modelled by the
  `RunResult.panicked` constructor, carrying the displayed error payload;
  it is distinct from an `Except.error` value returned to the caller.
* Apostrophes and special characters inside message string literals are
  written with `\xNN` escapes.
-/

/-- Exact rational value of the IEEE-754 single precision constant
`f32::consts::PI` (bit pattern `0x40490FDB`), used by the source wherever
it writes `PI`. -/
def f32pi : ℚ := 13176795 / 4194304

/-- Modelled from the spec: a vertex has a position, an optional normal and
an optional color/intensity attribute (geometry model, `geometry.rs` is not
among the provided sources). -/
structure Vertex where
  pos : ℚ × ℚ × ℚ
  normal : Option (ℚ × ℚ × ℚ)
  color : Option ℕ
deriving DecidableEq

/-- Modelled from the spec: a triangle is exactly three self-contained
vertices. -/
structure Triangle where
  v1 : Vertex
  v2 : Vertex
  v3 : Vertex
deriving DecidableEq

/-- Modelled from the spec: a `SimpleMesh` is an ordered sequence of
self-contained triangles. -/
abbrev SimpleMesh := List Triangle

/-- Modelled from the spec: the render context owns a color/glyph buffer
and a parallel depth buffer of identical dimensions, the viewport width and
height, and the mode flag distinguishing still/export from interactive
operation.  A depth cell of `none` is the sentinel farthest value; a color
cell of `0` is the background glyph.  (`context.rs` is not among the
provided sources.) -/
structure Context where
  image : Bool
  width : ℕ
  height : ℕ
  frame : List (List ℕ)
  depth : List (List (Option ℚ))
deriving DecidableEq

/-- Modelled from the spec: the context is created once at startup, before
any resize has applied a viewport size; its dimensions start at zero. -/
def Context.blank (image : Bool) : Context :=
  ⟨image, 0, 0, [], []⟩

/-- Modelled from the spec: `update(targetSize, meshQueue)` compares the
current viewport dimensions to the target size and, if different,
reallocates both buffers to the new size; it does not inspect the mesh
queue, whose parameter exists only for the call contract. -/
def Context.update (c : Context) (target : ℕ × ℕ) (_meshQueue : List SimpleMesh) : Context :=
  if c.width = target.1 ∧ c.height = target.2 then c
  else
    { c with
      width := target.1
      height := target.2
      frame := List.replicate target.2 (List.replicate target.1 0)
      depth := List.replicate target.2 (List.replicate target.1 none) }

/-- Modelled from the spec: `clear()` resets every depth cell to the
sentinel farthest value and every color cell to the background value. -/
def Context.clear (c : Context) : Context :=
  { c with
    frame := List.replicate c.height (List.replicate c.width 0)
    depth := List.replicate c.height (List.replicate c.width none) }

/-- Modelled from the spec: the fixed light direction the default shader
compares normals against. -/
def lightDirection : ℚ × ℚ × ℚ := (0, 0, 1)

/-- Modelled from the spec: the default shader computes an intensity from
the angle between the normal and a fixed light direction, clamped to a
visible range (`rasterizer.rs` is not among the provided sources; no claim
inspects the shader's output, only which shader the loop passes). -/
def default_shader (normal : ℚ × ℚ × ℚ) : ℚ :=
  max 0 (normal.1 * lightDirection.1 + normal.2.1 * lightDirection.2.1
    + normal.2.2 * lightDirection.2.2)

/-- Keyboard modifier flags of the crossterm interface, as observed by the
frame loop. -/
structure KeyModifiers where
  shift : Bool
  control : Bool
  alt : Bool
deriving DecidableEq

/-- The exact `KeyModifiers::CONTROL` value the source compares against. -/
def KeyModifiers.CONTROL : KeyModifiers := ⟨false, true, false⟩

/-- The empty modifier set (a plain keypress). -/
def KeyModifiers.NONE : KeyModifiers := ⟨false, false, false⟩

/-- Key codes of the crossterm interface. -/
inductive KeyCode where
  | char (c : Char)
  | enter
  | esc
  | other
deriving DecidableEq

/-- A key event: a code plus its modifiers. -/
structure KeyEvent where
  code : KeyCode
  modifiers : KeyModifiers
deriving DecidableEq

/-- Terminal events the loop may poll. -/
inductive Event where
  | key (k : KeyEvent)
  | resize (w h : ℕ)
  | mouse
deriving DecidableEq

/-- The quit test of the frame loop (`main.rs` lines 72-76): a polled key
event whose code is the character q, or the character c together with the
modifier set being exactly CONTROL.  `none` models `event::poll` returning
false within the frame budget; non-key events are ignored. -/
def isQuit : Option Event → Bool
  | some (Event.key ⟨KeyCode.char cc, m⟩) =>
      cc = 'q' ∨ (cc = 'c' ∧ m = KeyModifiers.CONTROL)
  | _ => false

/-- Decidable equality for `Except`, needed so that concrete loader results
can be checked by `decide`. -/
instance exceptDecEq {ε α : Type} [DecidableEq ε] [DecidableEq α] :
    DecidableEq (Except ε α) := fun x y =>
  match x, y with
  | Except.ok a, Except.ok b =>
    if h : a = b then isTrue (by rw [h])
    else isFalse (fun hc => h (Except.ok.inj hc))
  | Except.error a, Except.error b =>
    if h : a = b then isTrue (by rw [h])
    else isFalse (fun hc => h (Except.error.inj hc))
  | Except.ok _, Except.error _ => isFalse (fun hc => Except.noConfusion hc)
  | Except.error _, Except.ok _ => isFalse (fun hc => Except.noConfusion hc)

/-- Outcome of running a piece of Rust code that may panic: either the
value, or a panic carrying the displayed error payload (as produced by
`Result::unwrap` on an `Err`). -/
inductive RunResult (α : Type) where
  | ok (a : α)
  | panicked (msg : String)
deriving DecidableEq

/-- A model path given on the command line together with the filesystem's
responses for it: the result of `path.extension()` (outer `none` when the
filename has no extension, inner `none` when the extension is not valid
UTF-8), the result of `tobj::load_obj` (already converted to meshes by
`Opts::to_meshes`), and the results of opening and of `stl_io::read_stl`
for an STL file. -/
structure ModelPath where
  name : String
  ext : Option (Option String)
  objResult : Except String (List SimpleMesh)
  stlOpen : Except String Unit
  stlParse : Except String SimpleMesh
deriving DecidableEq

/-- Lower-casing of a single ASCII character. -/
def asciiLower (c : Char) : Char :=
  if 65 ≤ c.toNat ∧ c.toNat ≤ 90 then Char.ofNat (c.toNat + 32) else c

/-- The `to_lowercase()` applied to the extension string in
`Opts::match_meshes`, modelled on ASCII characters (the only case that can
match the compared literals `obj` and `stl`). -/
def toLowerStr (s : String) : String :=
  String.mk (s.data.map asciiLower)

/-- The error message built by the closure in `Opts::match_meshes`
(`inputs.rs` lines 72-74): `filename: [{:?}] couldn't load, {s}. {e}`. -/
def loadErrMsg (p : ModelPath) (s e : String) : String :=
  "filename: [\x22" ++ p.name ++ "\x22] couldn\x27t load, " ++ s ++ ". " ++ e

/-- The per-path loading logic of `Opts::match_meshes` (`inputs.rs` lines
76-96): dispatch on the filename extension, lower-cased, to the OBJ or STL
loader, wrapping every failure in the path-naming error message. -/
def loadModel (p : ModelPath) : Except String (List SimpleMesh) :=
  match p.ext with
  | none => Except.error (loadErrMsg p ("couldn\x27t determine filename extension") (""))
  | some none => Except.error (loadErrMsg p ("couldn\x27t parse filename extension") (""))
  | some (some extstr) =>
    match toLowerStr extstr with
    | "obj" =>
      match p.objResult with
      | Except.error e => Except.error (loadErrMsg p ("tobj couldnt load/parse OBJ") e)
      | Except.ok ms => Except.ok ms
    | "stl" =>
      match p.stlOpen with
      | Except.error e => Except.error (loadErrMsg p ("STL load failed") e)
      | Except.ok _ =>
        match p.stlParse with
        | Except.error e => Except.error (loadErrMsg p ("stl_io couldnt parse STL") e)
        | Except.ok m => Except.ok [m]
    | _ => Except.error (loadErrMsg p ("unknown filename extension") (""))

/-- The loop of `Opts::match_meshes` (`inputs.rs` lines 70-98): each path's
meshes are appended to the queue through `meshes.unwrap()`, so the first
failing path panics the process; only if every path loads is the whole
queue returned as `Ok`.  The function's Rust return type is
`Result<Vec<SimpleMesh>, _>`, hence the inner `Except` layer: an
`Except.error` would be an error value actually returned to the caller,
which the `unwrap` makes unreachable. -/
def matchMeshesGo : List ModelPath → List SimpleMesh → RunResult (Except String (List SimpleMesh))
  | [], acc => RunResult.ok (Except.ok acc)
  | p :: ps, acc =>
    match loadModel p with
    | Except.error e => RunResult.panicked e
    | Except.ok ms => matchMeshesGo ps (acc ++ ms)

/-- `Opts::match_meshes`, as a function of the path list `self.models`. -/
def match_meshes (models : List ModelPath) : RunResult (Except String (List SimpleMesh)) :=
  matchMeshesGo models []

/-- The four turntable scalars: `turntable.0` through `turntable.3` of the
source, named after the command-line options they are loaded from
(x alias yaw, y alias pitch, z alias roll, s for the speed). -/
structure Turntable where
  yaw : ℚ
  pitch : ℚ
  roll : ℚ
  speed : ℚ
deriving DecidableEq

/-- The subcommand selecting the mode (`inputs.rs` lines 41-58):
`Interactive`, or `Image` with the webify frame count, the width, and the
optional height. -/
inductive SubCommand where
  | interactive
  | image (webify : ℕ) (width : ℕ) (height : Option ℕ)
deriving DecidableEq

/-- The parsed command-line options (`inputs.rs` lines 12-39). -/
structure Opts where
  models : List ModelPath
  color_less : Bool
  x : ℚ
  y : ℚ
  z : ℚ
  speed : ℚ
  subcmd : SubCommand
deriving DecidableEq

/-- `Opts::match_turntable` (`inputs.rs` lines 101-109): build the tuple
from the x, y, z and speed options, then add pi to the pitch component
("All models for some reason are backwards, this fixes that"). -/
def Opts.match_turntable (o : Opts) : Except String Turntable :=
  let t : Turntable := ⟨0, 0, 0, 0⟩
  let t := { t with yaw := o.x }
  let t := { t with pitch := o.y }
  let t := { t with roll := o.z }
  let t := { t with speed := o.speed }
  let t := { t with pitch := t.pitch + f32pi }
  Except.ok t

/-- `Opts::match_dimensions` (`inputs.rs` lines 111-123): the entire body
that would copy the width and height options into the context is commented
out in the source; the function returns `Ok(())` leaving the context
untouched. -/
def Opts.match_dimensions (_o : Opts) (c : Context) : Except String Context :=
  Except.ok c

/-- Events recorded by the frame loop: each constructor marks one call the
loop body performs, in the order the source performs them.  `draw` carries
the Euler angles the rotation matrix was built from and the shader that was
passed, `flush` carries its two boolean arguments, and `emitLine` records a
`println!` of the webify export path. -/
inductive Ev where
  | poll
  | showCursor
  | leaveAltScreen
  | disableRaw
  | buildRot (yaw pitch roll : ℚ)
  | update (target : ℕ × ℕ)
  | clear
  | draw (m : SimpleMesh) (yaw pitch roll : ℚ) (shader : ℚ × ℚ × ℚ → ℚ)
  | flush (color : Bool) (webify : Bool)
  | emitLine (s : String)

/-- The values of `main` that stay fixed across loop iterations: the
`context.image` flag, the `webify` flag, `webify_todo_frames`, the
`no_color` flag, the constant `size` binding, and the mesh queue. -/
structure Cfg where
  image : Bool
  webify : Bool
  todo : ℤ
  noColor : Bool
  size : ℕ × ℕ
  meshes : List SimpleMesh

/-- The values of `main` the loop mutates: the turntable tuple, the render
context, and `webify_frame_count`. -/
structure LoopState where
  t : Turntable
  ctx : Context
  count : ℤ

/-- The frame delimiter line printed before each flush in webify mode
(`println!` of a single backtick). -/
def tickLine : String := "\x60"

/-- The line closing the whole webify frame array. -/
def closeLine : String := "\x60];"

/-- The separator line between webify frames. -/
def sepLine : String := "\x60,"

/-- One iteration of the frame loop of `main` (`main.rs` lines 69-119),
returning the events of the iteration, the successor state, and whether the
loop breaks.  In interactive mode the input is polled first and a
recognized quit keypress restores the terminal (show cursor, leave the
alternate screen, disable raw mode) and breaks before any rendering;
otherwise the body builds the rotation from the turntable angles, updates
and clears the context, draws every mesh with the default shader, prints
the webify delimiter when exporting, flushes, advances the pitch (by
`speed * dt` interactively, by `speed` when exporting), and finally runs
the webify termination bookkeeping or, in plain image mode, breaks. -/
def loopBody (cfg : Cfg) (st : LoopState) (ev : Option Event) (dt : ℚ) :
    List Ev × LoopState × Bool :=
  if cfg.image = false ∧ isQuit ev = true then
    ([Ev.poll, Ev.showCursor, Ev.leaveAltScreen, Ev.disableRaw], st, true)
  else
    let headEvs : List Ev := if cfg.image then [] else [Ev.poll]
    let ctx1 : Context := Context.clear (Context.update st.ctx cfg.size cfg.meshes)
    let frameEvs : List Ev :=
      headEvs
        ++ [Ev.buildRot st.t.yaw st.t.pitch st.t.roll, Ev.update cfg.size, Ev.clear]
        ++ List.map (fun m => Ev.draw m st.t.yaw st.t.pitch st.t.roll default_shader) cfg.meshes
        ++ (if cfg.webify then [Ev.emitLine tickLine] else [])
        ++ [Ev.flush (!cfg.noColor) cfg.webify]
    let t1 : Turntable :=
      ⟨st.t.yaw, st.t.pitch + (if cfg.webify then st.t.speed else st.t.speed * dt),
        st.t.roll, st.t.speed⟩
    if cfg.webify = true then
      if 9.42477 < t1.pitch ∨ cfg.todo - 1 = st.count then
        (frameEvs ++ [Ev.emitLine closeLine], ⟨t1, ctx1, st.count⟩, true)
      else
        (frameEvs ++ [Ev.emitLine sepLine], ⟨t1, ctx1, st.count + 1⟩, false)
    else
      (frameEvs, ⟨t1, ctx1, st.count⟩, cfg.image)

/-- The frame loop: iterate `loopBody`, feeding it the polled input and the
elapsed time of each iteration (`evs i` and `dts i` for iteration `i`), and
concatenating the event traces, until the body breaks or the fuel runs
out. -/
def runLoop (cfg : Cfg) (evs : ℕ → Option Event) (dts : ℕ → ℚ) :
    ℕ → ℕ → LoopState → List Ev × LoopState
  | 0, _, st => ([], st)
  | fuel + 1, i, st =>
    let r := loopBody cfg st (evs i) (dts i)
    if r.2.2 = true then (r.1, r.2.1)
    else
      let rest := runLoop cfg evs dts fuel (i + 1) r.2.1
      (r.1 ++ rest.1, rest.2)

/-- The loop configuration `main` builds before entering the loop
(`main.rs` lines 28-67): the mode flag from the subcommand, `webify`
initialized to `false` and never reassigned (the code that would enable it
is commented out), `webify_todo_frames` likewise left at `0`, the color
flag from the options, and the `size` binding that stays `(0, 0)`. -/
def mainCfg (o : Opts) (ms : List SimpleMesh) : Cfg :=
  { image :=
      match o.subcmd with
      | SubCommand.image _ _ _ => true
      | _ => false
    webify := false
    todo := 0
    noColor := o.color_less
    size := (0, 0)
    meshes := ms }

/-- The loop state `main` starts with: the turntable from
`match_turntable`, a blank context, and `webify_frame_count = 0`. -/
def mainInit (o : Opts) (t : Turntable) : LoopState :=
  ⟨t, Context.blank (mainCfg o []).image, 0⟩

/-- The run of `main` (`main.rs` lines 25-122) up to the frame loop:
load the meshes (a failing path panics inside `match_meshes`), build the
turntable, and run the loop with the configuration above.  A
`RunResult.ok (Except.error _)` would be `main` returning an error to its
caller through `?`. -/
def mainRun (o : Opts) (evs : ℕ → Option Event) (dts : ℕ → ℚ) (fuel : ℕ) :
    RunResult (Except String (List Ev × LoopState)) :=
  match match_meshes o.models with
  | RunResult.panicked m => RunResult.panicked m
  | RunResult.ok (Except.error e) => RunResult.ok (Except.error e)
  | RunResult.ok (Except.ok ms) =>
    match o.match_turntable with
    | Except.error e => RunResult.ok (Except.error e)
    | Except.ok t =>
      RunResult.ok (Except.ok (runLoop (mainCfg o ms) evs dts fuel 0 (mainInit o t)))

/-- The trace of a successful `mainRun` (empty for a panic or error). -/
def runTrace : RunResult (Except String (List Ev × LoopState)) → List Ev
  | RunResult.ok (Except.ok p) => p.1
  | _ => []

/-- The webify preset of `main` (`main.rs` line 66): before the loop,
export mode sets the angular speed to `(2.0 * PI) * (1.0 / totalFrames)`. -/
def webifyTurntable (t : Turntable) (todo : ℕ) : Turntable :=
  { t with speed := (2 * f32pi) * (1 / (todo : ℚ)) }

/-- Predicate marking flush events. -/
def Ev.isFlush : Ev → Bool
  | Ev.flush _ _ => true
  | _ => false

/-- Predicate marking draw events. -/
def Ev.isDraw : Ev → Bool
  | Ev.draw _ _ _ _ _ => true
  | _ => false

/-- Predicate marking clear events. -/
def Ev.isClear : Ev → Bool
  | Ev.clear => true
  | _ => false

/-- Predicate marking poll events. -/
def Ev.isPoll : Ev → Bool
  | Ev.poll => true
  | _ => false

/-- Predicate marking update events. -/
def Ev.isUpdate : Ev → Bool
  | Ev.update _ => true
  | _ => false

/-- Predicate marking emitted webify lines. -/
def Ev.isEmit : Ev → Bool
  | Ev.emitLine _ => true
  | _ => false

/-- Number of flushes in a trace (one per completed frame). -/
def flushCount : List Ev → ℕ
  | [] => 0
  | e :: l => (if Ev.isFlush e then 1 else 0) + flushCount l

/-- Number of draw calls in a trace. -/
def drawCount : List Ev → ℕ
  | [] => 0
  | e :: l => (if Ev.isDraw e then 1 else 0) + drawCount l

/-- Number of clears in a trace. -/
def clearCount : List Ev → ℕ
  | [] => 0
  | e :: l => (if Ev.isClear e then 1 else 0) + clearCount l

/-- Number of input polls in a trace. -/
def pollCount : List Ev → ℕ
  | [] => 0
  | e :: l => (if Ev.isPoll e then 1 else 0) + pollCount l

/-- Number of context updates in a trace. -/
def updateCount : List Ev → ℕ
  | [] => 0
  | e :: l => (if Ev.isUpdate e then 1 else 0) + updateCount l

/-- Number of webify text lines emitted in a trace. -/
def emitCount : List Ev → ℕ
  | [] => 0
  | e :: l => (if Ev.isEmit e then 1 else 0) + emitCount l

/-- The meshes drawn in a trace, in draw order. -/
def drawnMeshes : List Ev → List SimpleMesh
  | [] => []
  | Ev.draw m _ _ _ _ :: l => m :: drawnMeshes l
  | _ :: l => drawnMeshes l

/-- The target-size arguments of the update calls in a trace, in order. -/
def updateTargets : List Ev → List (ℕ × ℕ)
  | [] => []
  | Ev.update tg :: l => tg :: updateTargets l
  | _ :: l => updateTargets l

/-- A list of draw events contains no flush. -/
lemma flushCount_draws (ms : List SimpleMesh) (a b c : ℚ) (f : ℚ × ℚ × ℚ → ℚ) :
    flushCount (List.map (fun m => Ev.draw m a b c f) ms) = 0 := by
  induction ms with
  | nil => rfl
  | cons m t ih => simp [flushCount, Ev.isFlush, ih]

/-- A list of draw events contains no poll. -/
lemma pollCount_draws (ms : List SimpleMesh) (a b c : ℚ) (f : ℚ × ℚ × ℚ → ℚ) :
    pollCount (List.map (fun m => Ev.draw m a b c f) ms) = 0 := by
  induction ms with
  | nil => rfl
  | cons m t ih => simp [pollCount, Ev.isPoll, ih]

/-- A list of draw events contains no clear. -/
lemma clearCount_draws (ms : List SimpleMesh) (a b c : ℚ) (f : ℚ × ℚ × ℚ → ℚ) :
    clearCount (List.map (fun m => Ev.draw m a b c f) ms) = 0 := by
  induction ms with
  | nil => rfl
  | cons m t ih => simp [clearCount, Ev.isClear, ih]

/-- A list of draw events contains no update. -/
lemma updateCount_draws (ms : List SimpleMesh) (a b c : ℚ) (f : ℚ × ℚ × ℚ → ℚ) :
    updateCount (List.map (fun m => Ev.draw m a b c f) ms) = 0 := by
  induction ms with
  | nil => rfl
  | cons m t ih => simp [updateCount, Ev.isUpdate, ih]

/-- A list of draw events emits no webify line. -/
lemma emitCount_draws (ms : List SimpleMesh) (a b c : ℚ) (f : ℚ × ℚ × ℚ → ℚ) :
    emitCount (List.map (fun m => Ev.draw m a b c f) ms) = 0 := by
  induction ms with
  | nil => rfl
  | cons m t ih => simp [emitCount, Ev.isEmit, ih]

/-- A list of draw events draws exactly one mesh per event. -/
lemma drawCount_draws (ms : List SimpleMesh) (a b c : ℚ) (f : ℚ × ℚ × ℚ → ℚ) :
    drawCount (List.map (fun m => Ev.draw m a b c f) ms) = ms.length := by
  induction ms with
  | nil => rfl
  | cons m t ih => simp [drawCount, Ev.isDraw, ih, Nat.add_comm]

/-- Extracting the drawn meshes of a pure draw list recovers the mesh
queue in order. -/
lemma drawnMeshes_draws (ms : List SimpleMesh) (a b c : ℚ) (f : ℚ × ℚ × ℚ → ℚ) :
    drawnMeshes (List.map (fun m => Ev.draw m a b c f) ms) = ms := by
  induction ms with
  | nil => rfl
  | cons m t ih => simp [drawnMeshes, ih]

/-- A list of draw events performs no update call. -/
lemma updateTargets_draws (ms : List SimpleMesh) (a b c : ℚ) (f : ℚ × ℚ × ℚ → ℚ) :
    updateTargets (List.map (fun m => Ev.draw m a b c f) ms) = [] := by
  induction ms with
  | nil => rfl
  | cons m t ih => simp [updateTargets, ih]

/-- Flush count distributes over append. -/
lemma flushCount_append (a b : List Ev) :
    flushCount (a ++ b) = flushCount a + flushCount b := by
  induction a with
  | nil => simp [flushCount]
  | cons e t ih => simp [flushCount, ih, Nat.add_assoc]

/-- Flush count on cons. -/
lemma flushCount_cons (e : Ev) (l : List Ev) :
    flushCount (e :: l) = (if Ev.isFlush e then 1 else 0) + flushCount l := rfl

/-- Draw count distributes over append. -/
lemma drawCount_append (a b : List Ev) :
    drawCount (a ++ b) = drawCount a + drawCount b := by
  induction a with
  | nil => simp [drawCount]
  | cons e t ih => simp [drawCount, ih, Nat.add_assoc]

/-- Draw count on cons. -/
lemma drawCount_cons (e : Ev) (l : List Ev) :
    drawCount (e :: l) = (if Ev.isDraw e then 1 else 0) + drawCount l := rfl

/-- Clear count distributes over append. -/
lemma clearCount_append (a b : List Ev) :
    clearCount (a ++ b) = clearCount a + clearCount b := by
  induction a with
  | nil => simp [clearCount]
  | cons e t ih => simp [clearCount, ih, Nat.add_assoc]

/-- Clear count on cons. -/
lemma clearCount_cons (e : Ev) (l : List Ev) :
    clearCount (e :: l) = (if Ev.isClear e then 1 else 0) + clearCount l := rfl

/-- Poll count distributes over append. -/
lemma pollCount_append (a b : List Ev) :
    pollCount (a ++ b) = pollCount a + pollCount b := by
  induction a with
  | nil => simp [pollCount]
  | cons e t ih => simp [pollCount, ih, Nat.add_assoc]

/-- Poll count on cons. -/
lemma pollCount_cons (e : Ev) (l : List Ev) :
    pollCount (e :: l) = (if Ev.isPoll e then 1 else 0) + pollCount l := rfl

/-- Update count distributes over append. -/
lemma updateCount_append (a b : List Ev) :
    updateCount (a ++ b) = updateCount a + updateCount b := by
  induction a with
  | nil => simp [updateCount]
  | cons e t ih => simp [updateCount, ih, Nat.add_assoc]

/-- Update count on cons. -/
lemma updateCount_cons (e : Ev) (l : List Ev) :
    updateCount (e :: l) = (if Ev.isUpdate e then 1 else 0) + updateCount l := rfl

/-- Emit count distributes over append. -/
lemma emitCount_append (a b : List Ev) :
    emitCount (a ++ b) = emitCount a + emitCount b := by
  induction a with
  | nil => simp [emitCount]
  | cons e t ih => simp [emitCount, ih, Nat.add_assoc]

/-- Emit count on cons. -/
lemma emitCount_cons (e : Ev) (l : List Ev) :
    emitCount (e :: l) = (if Ev.isEmit e then 1 else 0) + emitCount l := rfl

/-- Drawn-mesh extraction distributes over append. -/
lemma drawnMeshes_append (a b : List Ev) :
    drawnMeshes (a ++ b) = drawnMeshes a ++ drawnMeshes b := by
  induction a with
  | nil => simp [drawnMeshes]
  | cons e t ih => cases e <;> simp [drawnMeshes, ih]

/-- Update-target extraction distributes over append. -/
lemma updateTargets_append (a b : List Ev) :
    updateTargets (a ++ b) = updateTargets a ++ updateTargets b := by
  induction a with
  | nil => simp [updateTargets]
  | cons e t ih => cases e <;> simp [updateTargets, ih]

/-- Unfolding of a plain image-mode (non-webify, non-interactive) loop
iteration: no poll, one update, one clear, one draw per mesh, one flush,
pitch advanced by `speed * dt`, and the loop breaks. -/
lemma loopBody_image_plain (cfg : Cfg) (hci : cfg.image = true)
    (hcw : cfg.webify = false) (st : LoopState) (ev : Option Event) (dt : ℚ) :
    loopBody cfg st ev dt =
      ([Ev.buildRot st.t.yaw st.t.pitch st.t.roll, Ev.update cfg.size, Ev.clear]
          ++ List.map (fun m => Ev.draw m st.t.yaw st.t.pitch st.t.roll default_shader) cfg.meshes
          ++ [Ev.flush (!cfg.noColor) false],
        ⟨⟨st.t.yaw, st.t.pitch + st.t.speed * dt, st.t.roll, st.t.speed⟩,
          Context.clear (Context.update st.ctx cfg.size cfg.meshes), st.count⟩,
        true) := by
  simp [loopBody, hci, hcw]

/-- A loop whose first iteration breaks returns that iteration's events
and state, whatever the remaining fuel. -/
lemma runLoop_break (cfg : Cfg) (evs : ℕ → Option Event) (dts : ℕ → ℚ)
    (fuel i : ℕ) (st : LoopState)
    (h : (loopBody cfg st (evs i) (dts i)).2.2 = true) :
    runLoop cfg evs dts (fuel + 1) i st
      = ((loopBody cfg st (evs i) (dts i)).1, (loopBody cfg st (evs i) (dts i)).2.1) := by
  simp [runLoop, h]

/-- A loop whose first iteration does not break prepends that iteration's
events and recurses on the rest of the fuel. -/
lemma runLoop_cont (cfg : Cfg) (evs : ℕ → Option Event) (dts : ℕ → ℚ)
    (fuel i : ℕ) (st : LoopState)
    (h : (loopBody cfg st (evs i) (dts i)).2.2 = false) :
    runLoop cfg evs dts (fuel + 1) i st
      = ((loopBody cfg st (evs i) (dts i)).1
            ++ (runLoop cfg evs dts fuel (i + 1) (loopBody cfg st (evs i) (dts i)).2.1).1,
          (runLoop cfg evs dts fuel (i + 1) (loopBody cfg st (evs i) (dts i)).2.1).2) := by
  simp [runLoop, h]

/-- C6: `match_turntable` returns the four CLI scalars unchanged except
that the pitch carries the fixed half-revolution offset: the result is
exactly `(x, y + pi, z, speed)` with yaw, roll and speed as supplied. -/
theorem match_turntable_adds_pi_offset (o : Opts) :
    o.match_turntable = Except.ok ⟨o.x, o.y + f32pi, o.z, o.speed⟩ := rfl

/-- C10, counterexample: with CLI width 40 (and no height), running
`match_dimensions` on the startup context leaves it completely unchanged —
its width stays 0, not the CLI-supplied 40 — because the function's body
is commented out in the source. -/
theorem match_dimensions_ignores_cli_width :
    (⟨[], false, 0, 0, 0, 1, SubCommand.image 0 40 none⟩ : Opts).match_dimensions
        (Context.blank true) = Except.ok (Context.blank true)
    ∧ (Context.blank true).width = 0 ∧ (Context.blank true).height = 0 :=
  ⟨rfl, rfl, rfl⟩

/-- C10 (amended): `match_dimensions` is a no-op — its body that would
copy the CLI width (and defaulted height) into the context is commented
out, so the context's dimensions are never set from the CLI arguments. -/
theorem match_dimensions_noop (o : Opts) (c : Context) :
    o.match_dimensions c = Except.ok c := rfl

/-- C2 (code_bug evidence): a path whose OBJ data fails to parse makes
`match_meshes` panic — through `meshes.unwrap()` — with a message naming
the offending path and the cause; the constructed error value is never
returned to the caller (the result is `panicked`, not `ok (error _)`),
and no mesh queue is produced. -/
theorem match_meshes_panics_on_parse_error :
    match_meshes
        [⟨"model.obj", some (some "obj"), Except.error "invalid face",
          Except.ok (), Except.error ""⟩]
      = RunResult.panicked
          ("filename: [\x22model.obj\x22] couldn\x27t load, tobj couldnt load/parse OBJ. invalid face") := by
  decide

/-- C5: in Image (still) mode as built, the webify export path is never
enabled — `mainCfg` fixes `webify := false` (the enabling code is commented
out) — so the frame loop performs exactly one iteration whatever fuel it is
given: one context update, one clear, one draw pass over the mesh queue in
order, one flush, no webify export line, and then it breaks. -/
theorem image_mode_single_pass (models : List ModelPath) (cl : Bool) (x y z s : ℚ)
    (j w : ℕ) (oh : Option ℕ) (ms : List SimpleMesh)
    (evs : ℕ → Option Event) (dts : ℕ → ℚ) (fuel i : ℕ) (st : LoopState) :
    (mainCfg ⟨models, cl, x, y, z, s, SubCommand.image j w oh⟩ ms).webify = false
    ∧ runLoop (mainCfg ⟨models, cl, x, y, z, s, SubCommand.image j w oh⟩ ms)
          evs dts (fuel + 1) i st
        = runLoop (mainCfg ⟨models, cl, x, y, z, s, SubCommand.image j w oh⟩ ms)
          evs dts 1 i st
    ∧ flushCount (runLoop (mainCfg ⟨models, cl, x, y, z, s, SubCommand.image j w oh⟩ ms)
          evs dts (fuel + 1) i st).1 = 1
    ∧ updateCount (runLoop (mainCfg ⟨models, cl, x, y, z, s, SubCommand.image j w oh⟩ ms)
          evs dts (fuel + 1) i st).1 = 1
    ∧ clearCount (runLoop (mainCfg ⟨models, cl, x, y, z, s, SubCommand.image j w oh⟩ ms)
          evs dts (fuel + 1) i st).1 = 1
    ∧ drawnMeshes (runLoop (mainCfg ⟨models, cl, x, y, z, s, SubCommand.image j w oh⟩ ms)
          evs dts (fuel + 1) i st).1 = ms
    ∧ emitCount (runLoop (mainCfg ⟨models, cl, x, y, z, s, SubCommand.image j w oh⟩ ms)
          evs dts (fuel + 1) i st).1 = 0 := by
  have hb := loopBody_image_plain
    (mainCfg ⟨models, cl, x, y, z, s, SubCommand.image j w oh⟩ ms) rfl rfl
    st (evs i) (dts i)
  have hbrk : (loopBody (mainCfg ⟨models, cl, x, y, z, s, SubCommand.image j w oh⟩ ms)
      st (evs i) (dts i)).2.2 = true := by rw [hb]
  have h1 := runLoop_break _ evs dts fuel i st hbrk
  have h0 := runLoop_break _ evs dts 0 i st hbrk
  refine ⟨rfl, h1.trans h0.symm, ?_, ?_, ?_, ?_, ?_⟩
  · rw [h1, hb]
    simp [flushCount_append, flushCount_cons, flushCount, Ev.isFlush, flushCount_draws]
  · rw [h1, hb]
    simp [updateCount_append, updateCount_cons, updateCount, Ev.isUpdate, updateCount_draws]
  · rw [h1, hb]
    simp [clearCount_append, clearCount_cons, clearCount, Ev.isClear, clearCount_draws]
  · rw [h1, hb]
    rw [drawnMeshes_append, drawnMeshes_append, drawnMeshes_draws]
    simp [drawnMeshes, mainCfg]
  · rw [h1, hb]
    simp [emitCount_append, emitCount_cons, emitCount, Ev.isEmit, emitCount_draws]

/-- C3, counterexample: with no model paths at all, `match_meshes` returns
`Ok` of the empty queue — not an error — and the image-mode run still
enters the frame loop and flushes a frame: the core starts despite the
empty mesh sequence. -/
theorem empty_models_image_run_flushes :
    match_meshes ([] : List ModelPath) = RunResult.ok (Except.ok ([] : List SimpleMesh))
    ∧ flushCount (runTrace (mainRun ⟨[], false, 0, 0, 0, 1, SubCommand.image 0 10 none⟩
        (fun _ => none) (fun _ => 1) 3)) = 1 := by
  exact ⟨rfl, rfl⟩

/-- C3 (amended): an empty mesh queue does not prevent the core from
starting — with an empty model list the loader yields `Ok` of the empty
queue, and the image-mode run performs its full single iteration, flushing
one (background-only) frame with zero draw calls; nothing fails fast. -/
theorem empty_mesh_run_renders (cl : Bool) (x y z s : ℚ) (j w : ℕ) (oh : Option ℕ)
    (evs : ℕ → Option Event) (dts : ℕ → ℚ) (fuel : ℕ) :
    match_meshes ([] : List ModelPath) = RunResult.ok (Except.ok ([] : List SimpleMesh))
    ∧ flushCount (runTrace (mainRun ⟨[], cl, x, y, z, s, SubCommand.image j w oh⟩
        evs dts (fuel + 1))) = 1
    ∧ drawCount (runTrace (mainRun ⟨[], cl, x, y, z, s, SubCommand.image j w oh⟩
        evs dts (fuel + 1))) = 0 := by
  have hb := loopBody_image_plain
    (mainCfg ⟨[], cl, x, y, z, s, SubCommand.image j w oh⟩ []) rfl rfl
    (mainInit ⟨[], cl, x, y, z, s, SubCommand.image j w oh⟩ ⟨x, y + f32pi, z, s⟩)
    (evs 0) (dts 0)
  have hbrk : (loopBody (mainCfg ⟨[], cl, x, y, z, s, SubCommand.image j w oh⟩ [])
      (mainInit ⟨[], cl, x, y, z, s, SubCommand.image j w oh⟩ ⟨x, y + f32pi, z, s⟩)
      (evs 0) (dts 0)).2.2 = true := by rw [hb]
  have h1 := runLoop_break (mainCfg ⟨[], cl, x, y, z, s, SubCommand.image j w oh⟩ [])
    evs dts fuel 0
    (mainInit ⟨[], cl, x, y, z, s, SubCommand.image j w oh⟩ ⟨x, y + f32pi, z, s⟩) hbrk
  refine ⟨rfl, ?_, ?_⟩
  · show flushCount (runLoop (mainCfg ⟨[], cl, x, y, z, s, SubCommand.image j w oh⟩ [])
      evs dts (fuel + 1) 0
      (mainInit ⟨[], cl, x, y, z, s, SubCommand.image j w oh⟩ ⟨x, y + f32pi, z, s⟩)).1 = 1
    rw [h1, hb]
    simp [flushCount_append, flushCount_cons, flushCount, Ev.isFlush, mainCfg]
  · show drawCount (runLoop (mainCfg ⟨[], cl, x, y, z, s, SubCommand.image j w oh⟩ [])
      evs dts (fuel + 1) 0
      (mainInit ⟨[], cl, x, y, z, s, SubCommand.image j w oh⟩ ⟨x, y + f32pi, z, s⟩)).1 = 0
    rw [h1, hb]
    simp [drawCount_append, drawCount_cons, drawCount, Ev.isDraw, mainCfg]

/-- Unfolding of an interactive iteration that polls a quit keypress: the
terminal is restored (show cursor, leave alternate screen, disable raw
mode) and the loop breaks with the state untouched; nothing is rendered. -/
lemma loopBody_quit (cfg : Cfg) (hci : cfg.image = false) (st : LoopState)
    (ev : Option Event) (dt : ℚ) (hq : isQuit ev = true) :
    loopBody cfg st ev dt
      = ([Ev.poll, Ev.showCursor, Ev.leaveAltScreen, Ev.disableRaw], st, true) := by
  simp [loopBody, hci, hq]

/-- Unfolding of an interactive (non-webify) iteration without a quit
keypress: one poll, then the frame — rotation, update, clear, draws,
flush — pitch advanced by `speed * dt`, and the loop continues. -/
lemma loopBody_interactive_plain (cfg : Cfg) (hci : cfg.image = false)
    (hcw : cfg.webify = false) (st : LoopState) (ev : Option Event) (dt : ℚ)
    (hq : isQuit ev = false) :
    loopBody cfg st ev dt
      = (Ev.poll :: ([Ev.buildRot st.t.yaw st.t.pitch st.t.roll, Ev.update cfg.size, Ev.clear]
            ++ List.map (fun m => Ev.draw m st.t.yaw st.t.pitch st.t.roll default_shader) cfg.meshes
            ++ [Ev.flush (!cfg.noColor) false]),
          ⟨⟨st.t.yaw, st.t.pitch + st.t.speed * dt, st.t.roll, st.t.speed⟩,
            Context.clear (Context.update st.ctx cfg.size cfg.meshes), st.count⟩,
          false) := by
  simp [loopBody, hci, hcw, hq]

/-- In a non-webify run whose configured target size is the constant
`(0, 0)`, every update call receives exactly `(0, 0)` (one update per
flushed frame) and the context's dimensions remain zero forever once they
start at zero. -/
lemma runLoop_zero_size (cfg : Cfg) (hsz : cfg.size = (0, 0)) (hcw : cfg.webify = false)
    (evs : ℕ → Option Event) (dts : ℕ → ℚ) :
    ∀ (fuel i : ℕ) (st : LoopState), st.ctx.width = 0 → st.ctx.height = 0 →
      (updateTargets (runLoop cfg evs dts fuel i st).1
        = List.replicate (flushCount (runLoop cfg evs dts fuel i st).1) ((0 : ℕ), (0 : ℕ)))
      ∧ (runLoop cfg evs dts fuel i st).2.ctx.width = 0
      ∧ (runLoop cfg evs dts fuel i st).2.ctx.height = 0 := by
  intro fuel
  induction fuel with
  | zero => intro i st hw hh; exact ⟨rfl, hw, hh⟩
  | succ fuel ih =>
    intro i st hw hh
    cases hci : cfg.image with
    | true =>
      have hb := loopBody_image_plain cfg hci hcw st (evs i) (dts i)
      have hbrk : (loopBody cfg st (evs i) (dts i)).2.2 = true := by rw [hb]
      have h1 := runLoop_break cfg evs dts fuel i st hbrk
      rw [h1, hb]
      refine ⟨?_, ?_, ?_⟩
      · rw [updateTargets_append, updateTargets_append, updateTargets_draws,
          flushCount_append, flushCount_append, flushCount_draws]
        simp [updateTargets, flushCount, Ev.isFlush, hsz]
      · simp [Context.clear, Context.update, hsz, hw, hh]
      · simp [Context.clear, Context.update, hsz, hw, hh]
    | false =>
      cases hq : isQuit (evs i) with
      | true =>
        have hb := loopBody_quit cfg hci st (evs i) (dts i) hq
        have hbrk : (loopBody cfg st (evs i) (dts i)).2.2 = true := by rw [hb]
        have h1 := runLoop_break cfg evs dts fuel i st hbrk
        rw [h1, hb]
        exact ⟨rfl, hw, hh⟩
      | false =>
        have hb := loopBody_interactive_plain cfg hci hcw st (evs i) (dts i) hq
        have hbrk : (loopBody cfg st (evs i) (dts i)).2.2 = false := by rw [hb]
        have h1 := runLoop_cont cfg evs dts fuel i st hbrk
        have hst := ih (i + 1) (loopBody cfg st (evs i) (dts i)).2.1
          (by rw [hb]; simp [Context.clear, Context.update, hsz, hw, hh])
          (by rw [hb]; simp [Context.clear, Context.update, hsz, hw, hh])
        rw [h1]
        refine ⟨?_, hst.2.1, hst.2.2⟩
        rw [updateTargets_append, flushCount_append, hst.1, hb]
        simp [updateTargets_append, flushCount_append, updateTargets, flushCount,
          Ev.isFlush, Ev.isUpdate, Ev.isPoll, updateTargets_draws, flushCount_draws,
          hsz, List.replicate_add, List.replicate_succ]

/-- C4, counterexample: in an interactive run, the update call of the
first frame receives the constant placeholder `(0, 0)` — the `size`
binding initialized before the loop and never refreshed from the
terminal — and the context's buffers end the frame still at dimensions
`0 × 0`, regardless of the actual viewport (for example an 80 by 24
terminal). -/
theorem update_called_with_placeholder_size :
    updateTargets (runLoop
        (mainCfg ⟨[], false, 0, 0, 0, 1, SubCommand.interactive⟩ [])
        (fun _ => none) (fun _ => 1) 1 0
        (mainInit ⟨[], false, 0, 0, 0, 1, SubCommand.interactive⟩ ⟨0, f32pi, 0, 1⟩)).1
      = [((0 : ℕ), (0 : ℕ))]
    ∧ (runLoop (mainCfg ⟨[], false, 0, 0, 0, 1, SubCommand.interactive⟩ [])
        (fun _ => none) (fun _ => 1) 1 0
        (mainInit ⟨[], false, 0, 0, 0, 1, SubCommand.interactive⟩ ⟨0, f32pi, 0, 1⟩)).2.ctx.width
      = 0
    ∧ (runLoop (mainCfg ⟨[], false, 0, 0, 0, 1, SubCommand.interactive⟩ [])
        (fun _ => none) (fun _ => 1) 1 0
        (mainInit ⟨[], false, 0, 0, 0, 1, SubCommand.interactive⟩ ⟨0, f32pi, 0, 1⟩)).2.ctx.height
      = 0 := by
  exact ⟨rfl, rfl, rfl⟩

/-- C4 (amended): on every iteration `update` is indeed called, but its
target-size argument is always the constant `(0, 0)` initialized before
the loop (one update per flushed frame), never the externally observed
terminal size; consequently the context's buffers stay at dimensions
`0 × 0` for the whole run and are never reallocated to an external
viewport size. -/
theorem update_target_constant_zero (o : Opts) (ms : List SimpleMesh)
    (evs : ℕ → Option Event) (dts : ℕ → ℚ) (fuel i : ℕ) (t : Turntable) :
    (updateTargets (runLoop (mainCfg o ms) evs dts fuel i (mainInit o t)).1
      = List.replicate (flushCount (runLoop (mainCfg o ms) evs dts fuel i (mainInit o t)).1)
          ((0 : ℕ), (0 : ℕ)))
    ∧ (runLoop (mainCfg o ms) evs dts fuel i (mainInit o t)).2.ctx.width = 0
    ∧ (runLoop (mainCfg o ms) evs dts fuel i (mainInit o t)).2.ctx.height = 0 :=
  runLoop_zero_size (mainCfg o ms) rfl rfl evs dts fuel i (mainInit o t) rfl rfl

/-- C7: the per-frame turntable tick mutates exactly the pitch: in
interactive mode (no quit polled) the pitch grows by `speed * dt` (the
elapsed seconds of the iteration), in webify export mode by exactly
`speed`; yaw, roll and the speed itself are returned unchanged in both
modes. -/
theorem turntable_tick_pitch_only (td : ℤ) (nc : Bool) (sz : ℕ × ℕ)
    (ms : List SimpleMesh) (st : LoopState) (ev : Option Event) (dt : ℚ)
    (h : isQuit ev = false) :
    (loopBody ⟨false, false, td, nc, sz, ms⟩ st ev dt).2.1.t
        = ⟨st.t.yaw, st.t.pitch + st.t.speed * dt, st.t.roll, st.t.speed⟩
    ∧ (loopBody ⟨true, true, td, nc, sz, ms⟩ st ev dt).2.1.t
        = ⟨st.t.yaw, st.t.pitch + st.t.speed, st.t.roll, st.t.speed⟩ := by
  constructor
  · rw [loopBody_interactive_plain ⟨false, false, td, nc, sz, ms⟩ rfl rfl st ev dt h]
  · by_cases hc : 9.42477 < st.t.pitch + st.t.speed ∨ (td : ℤ) - 1 = st.count
    · simp [loopBody, hc]
    · simp [loopBody, hc]

/-- Witness for the turntable tick: concrete inputs, quitless poll. -/
theorem turntable_tick_pitch_only_witness :
    isQuit none = false
    ∧ ((loopBody ⟨false, false, 0, false, (0, 0), []⟩
          ⟨⟨1, 2, 3, 4⟩, Context.blank false, 0⟩ none 5).2.1.t
        = ⟨1, 2 + 4 * 5, 3, 4⟩
      ∧ (loopBody ⟨true, true, 0, false, (0, 0), []⟩
          ⟨⟨1, 2, 3, 4⟩, Context.blank false, 0⟩ none 5).2.1.t
        = ⟨1, 2 + 4, 3, 4⟩) :=
  ⟨rfl, turntable_tick_pitch_only 0 false (0, 0) []
    ⟨⟨1, 2, 3, 4⟩, Context.blank false, 0⟩ none 5 rfl⟩

/-- The quit test succeeds exactly on the q key (any modifiers) and on
Ctrl-C (the c key with the modifier set equal to CONTROL). -/
lemma isQuit_iff (ev : Option Event) :
    isQuit ev = true
      ↔ ((∃ mods, ev = some (Event.key ⟨KeyCode.char 'q', mods⟩))
          ∨ ev = some (Event.key ⟨KeyCode.char 'c', KeyModifiers.CONTROL⟩)) := by
  cases ev with
  | none => simp [isQuit]
  | some e =>
    cases e with
    | key k =>
      obtain ⟨code, mods⟩ := k
      cases code with
      | char cc =>
        simp only [isQuit, decide_eq_true_eq, Option.some.injEq, Event.key.injEq,
          KeyEvent.mk.injEq, KeyCode.char.injEq]
        constructor
        · rintro (rfl | ⟨rfl, rfl⟩)
          · exact Or.inl ⟨mods, rfl, rfl⟩
          · exact Or.inr ⟨rfl, rfl⟩
        · rintro (⟨m, rfl, rfl⟩ | ⟨rfl, rfl⟩)
          · exact Or.inl rfl
          · exact Or.inr ⟨rfl, rfl⟩
      | enter => simp [isQuit]
      | esc => simp [isQuit]
      | other => simp [isQuit]
    | resize w h => simp [isQuit]
    | mouse => simp [isQuit]

/-- C8: in interactive mode cancellation is polled once per frame, and the
loop breaks if and only if the polled input is the q key or Ctrl-C; on a
quit the iteration consists solely of the poll and the terminal
restoration (show cursor, leave the alternate screen, disable raw mode) —
no draw and no flush happen, so no frame is interrupted midway — while on
any other input the loop keeps running and completes the frame (one
flush). -/
theorem interactive_cancellation (td : ℤ) (nc : Bool) (sz : ℕ × ℕ)
    (ms : List SimpleMesh) (st : LoopState) (ev : Option Event) (dt : ℚ) :
    ((loopBody ⟨false, false, td, nc, sz, ms⟩ st ev dt).2.2 = true
        ↔ ((∃ mods, ev = some (Event.key ⟨KeyCode.char 'q', mods⟩))
            ∨ ev = some (Event.key ⟨KeyCode.char 'c', KeyModifiers.CONTROL⟩)))
    ∧ pollCount (loopBody ⟨false, false, td, nc, sz, ms⟩ st ev dt).1 = 1
    ∧ ((loopBody ⟨false, false, td, nc, sz, ms⟩ st ev dt).2.2 = true →
        (loopBody ⟨false, false, td, nc, sz, ms⟩ st ev dt).1
            = [Ev.poll, Ev.showCursor, Ev.leaveAltScreen, Ev.disableRaw]
          ∧ drawCount (loopBody ⟨false, false, td, nc, sz, ms⟩ st ev dt).1 = 0
          ∧ flushCount (loopBody ⟨false, false, td, nc, sz, ms⟩ st ev dt).1 = 0)
    ∧ ((loopBody ⟨false, false, td, nc, sz, ms⟩ st ev dt).2.2 = false →
        flushCount (loopBody ⟨false, false, td, nc, sz, ms⟩ st ev dt).1 = 1) := by
  cases hq : isQuit ev with
  | true =>
    have hb := loopBody_quit ⟨false, false, td, nc, sz, ms⟩ rfl st ev dt hq
    rw [hb]
    refine ⟨?_, rfl, fun _ => ⟨rfl, rfl, rfl⟩, ?_⟩
    · simp only [iff_true_intro ((isQuit_iff ev).mp hq)]
    · intro hcontra
      exact absurd hcontra (by simp)
  | false =>
    have hb := loopBody_interactive_plain ⟨false, false, td, nc, sz, ms⟩ rfl rfl st ev dt hq
    rw [hb]
    have hnot : ¬((∃ mods, ev = some (Event.key ⟨KeyCode.char 'q', mods⟩))
        ∨ ev = some (Event.key ⟨KeyCode.char 'c', KeyModifiers.CONTROL⟩)) := by
      intro hr
      rw [(isQuit_iff ev).mpr hr] at hq
      exact Bool.noConfusion hq
    refine ⟨iff_of_false (by simp) hnot, ?_, ?_, ?_⟩
    · simp [pollCount_cons, pollCount_append, pollCount, Ev.isPoll, pollCount_draws]
    · intro hcontra
      exact absurd hcontra (by simp)
    · intro _
      simp [flushCount_cons, flushCount_append, flushCount, Ev.isFlush, flushCount_draws]

/-- Witness for the cancellation behaviour: a plain q keypress breaks the
loop and the iteration is exactly poll plus terminal restoration. -/
theorem interactive_cancellation_witness :
    (loopBody ⟨false, false, 0, false, (0, 0), []⟩
        ⟨⟨0, f32pi, 0, 1⟩, Context.blank false, 0⟩
        (some (Event.key ⟨KeyCode.char 'q', KeyModifiers.NONE⟩)) 1).2.2 = true
    ∧ (loopBody ⟨false, false, 0, false, (0, 0), []⟩
        ⟨⟨0, f32pi, 0, 1⟩, Context.blank false, 0⟩
        (some (Event.key ⟨KeyCode.char 'q', KeyModifiers.NONE⟩)) 1).1
      = [Ev.poll, Ev.showCursor, Ev.leaveAltScreen, Ev.disableRaw] := by
  have h := interactive_cancellation 0 false (0, 0) []
    ⟨⟨0, f32pi, 0, 1⟩, Context.blank false, 0⟩
    (some (Event.key ⟨KeyCode.char 'q', KeyModifiers.NONE⟩)) 1
  have hb := h.1.mpr (Or.inl ⟨KeyModifiers.NONE, rfl⟩)
  exact ⟨hb, (h.2.2.1 hb).1⟩

/-- Unfolding of a webify iteration that hits the termination test (pitch
past the 9.42477 threshold after the increment, or the frame index at
`todo - 1`): the frame is rendered and flushed, the closing line of the
frame array is emitted, and the loop breaks with the frame counter left as
it is. -/
lemma loopBody_webify_break (cfg : Cfg) (hcw : cfg.webify = true)
    (st : LoopState) (ev : Option Event) (dt : ℚ)
    (hnq : ¬(cfg.image = false ∧ isQuit ev = true))
    (hc : 9.42477 < st.t.pitch + st.t.speed ∨ cfg.todo - 1 = st.count) :
    loopBody cfg st ev dt
      = ((if cfg.image then [] else [Ev.poll])
            ++ [Ev.buildRot st.t.yaw st.t.pitch st.t.roll, Ev.update cfg.size, Ev.clear]
            ++ List.map (fun m => Ev.draw m st.t.yaw st.t.pitch st.t.roll default_shader) cfg.meshes
            ++ [Ev.emitLine tickLine] ++ [Ev.flush (!cfg.noColor) true]
            ++ [Ev.emitLine closeLine],
          ⟨⟨st.t.yaw, st.t.pitch + st.t.speed, st.t.roll, st.t.speed⟩,
            Context.clear (Context.update st.ctx cfg.size cfg.meshes), st.count⟩,
          true) := by
  simp [loopBody, hcw, hnq, hc]

/-- Unfolding of a webify iteration that does not hit the termination
test: the frame is rendered and flushed, the separator line is emitted,
the frame counter is incremented, and the loop continues. -/
lemma loopBody_webify_cont (cfg : Cfg) (hcw : cfg.webify = true)
    (st : LoopState) (ev : Option Event) (dt : ℚ)
    (hnq : ¬(cfg.image = false ∧ isQuit ev = true))
    (hc : ¬(9.42477 < st.t.pitch + st.t.speed ∨ cfg.todo - 1 = st.count)) :
    loopBody cfg st ev dt
      = ((if cfg.image then [] else [Ev.poll])
            ++ [Ev.buildRot st.t.yaw st.t.pitch st.t.roll, Ev.update cfg.size, Ev.clear]
            ++ List.map (fun m => Ev.draw m st.t.yaw st.t.pitch st.t.roll default_shader) cfg.meshes
            ++ [Ev.emitLine tickLine] ++ [Ev.flush (!cfg.noColor) true]
            ++ [Ev.emitLine sepLine],
          ⟨⟨st.t.yaw, st.t.pitch + st.t.speed, st.t.roll, st.t.speed⟩,
            Context.clear (Context.update st.ctx cfg.size cfg.meshes), st.count + 1⟩,
          false) := by
  simp [loopBody, hcw, hnq, hc]

/-- C9: in every frame the loop body performs its operations in the fixed
order — the rotation is built from the turntable's yaw, pitch and roll,
the context is updated and then cleared, every mesh of the queue is drawn
in order with those angles and the default shader, and only then is the
context flushed.  Everything before the clear is at most the input poll,
and everything between the draws and the flush or after the flush is at
most a webify text line, so the clear precedes all of the frame's
rasterization and the flush follows all of it. -/
theorem frame_event_order (cfg : Cfg) (st : LoopState) (ev : Option Event) (dt : ℚ)
    (hq : cfg.image = true ∨ isQuit ev = false) :
    ∃ l1 l2 l3,
      (loopBody cfg st ev dt).1
        = l1 ++ [Ev.buildRot st.t.yaw st.t.pitch st.t.roll, Ev.update cfg.size, Ev.clear]
            ++ List.map (fun m => Ev.draw m st.t.yaw st.t.pitch st.t.roll default_shader) cfg.meshes
            ++ l2 ++ [Ev.flush (!cfg.noColor) cfg.webify] ++ l3
      ∧ (∀ e ∈ l1, e = Ev.poll)
      ∧ (∀ e ∈ l2 ++ l3, ∃ str, e = Ev.emitLine str) := by
  have hnq : ¬(cfg.image = false ∧ isQuit ev = true) := by
    rcases hq with h | h
    · rintro ⟨h1, _⟩
      rw [h] at h1
      exact Bool.noConfusion h1
    · rintro ⟨_, h2⟩
      rw [h] at h2
      exact Bool.noConfusion h2
  cases hcw : cfg.webify with
  | false =>
    cases hci : cfg.image with
    | true =>
      have hb := loopBody_image_plain cfg hci hcw st ev dt
      refine ⟨[], [], [], ?_, by simp, by simp⟩
      rw [hb]
      simp
    | false =>
      have hq2 : isQuit ev = false := by
        rcases hq with h | h
        · rw [hci] at h
          exact Bool.noConfusion h
        · exact h
      have hb := loopBody_interactive_plain cfg hci hcw st ev dt hq2
      refine ⟨[Ev.poll], [], [], ?_, ?_, by simp⟩
      · rw [hb]
        simp
      · intro e he
        simpa using List.mem_singleton.mp he
  | true =>
    by_cases hc : 9.42477 < st.t.pitch + st.t.speed ∨ cfg.todo - 1 = st.count
    · have hb := loopBody_webify_break cfg hcw st ev dt hnq hc
      refine ⟨(if cfg.image then [] else [Ev.poll]), [Ev.emitLine tickLine],
        [Ev.emitLine closeLine], ?_, ?_, ?_⟩
      · rw [hb]
      · intro e he
        cases hci : cfg.image with
        | true => rw [hci] at he; simp at he
        | false =>
          rw [hci] at he
          simpa using List.mem_singleton.mp he
      · intro e he
        rcases List.mem_append.mp he with h1 | h1
        · exact ⟨tickLine, List.mem_singleton.mp h1⟩
        · exact ⟨closeLine, List.mem_singleton.mp h1⟩
    · have hb := loopBody_webify_cont cfg hcw st ev dt hnq hc
      refine ⟨(if cfg.image then [] else [Ev.poll]), [Ev.emitLine tickLine],
        [Ev.emitLine sepLine], ?_, ?_, ?_⟩
      · rw [hb]
      · intro e he
        cases hci : cfg.image with
        | true => rw [hci] at he; simp at he
        | false =>
          rw [hci] at he
          simpa using List.mem_singleton.mp he
      · intro e he
        rcases List.mem_append.mp he with h1 | h1
        · exact ⟨tickLine, List.mem_singleton.mp h1⟩
        · exact ⟨sepLine, List.mem_singleton.mp h1⟩

/-- Witness for the frame order: a concrete image-mode iteration. -/
theorem frame_event_order_witness :
    ∃ l1 l2 l3,
      (loopBody ⟨true, false, 0, false, (0, 0), []⟩
          ⟨⟨1, 2, 3, 4⟩, Context.blank true, 0⟩ none 0).1
        = l1 ++ [Ev.buildRot 1 2 3, Ev.update (0, 0), Ev.clear]
            ++ List.map (fun m => Ev.draw m 1 2 3 default_shader) []
            ++ l2 ++ [Ev.flush true false] ++ l3
      ∧ (∀ e ∈ l1, e = Ev.poll)
      ∧ (∀ e ∈ l2 ++ l3, ∃ str, e = Ev.emitLine str) :=
  frame_event_order ⟨true, false, 0, false, (0, 0), []⟩
    ⟨⟨1, 2, 3, 4⟩, Context.blank true, 0⟩ none 0 (Or.inl rfl)

/-- Running the webify export loop with positive speed `s`: as long as the
pitch threshold is not crossed strictly before the index check fires, a run
given fuel `n + 1` — with the frame counter positioned `n + 1` frames away
from `todo - 1` — flushes exactly `n + 1` frames, advances the pitch by
exactly `(n + 1) * s`, and ends with the counter at `todo - 1`. -/
lemma runLoop_webify_frames (td : ℤ) (nc : Bool) (sz : ℕ × ℕ) (ms : List SimpleMesh)
    (evs : ℕ → Option Event) (dts : ℕ → ℚ) (s : ℚ) (hs : 0 < s) :
    ∀ (n i : ℕ) (st : LoopState),
      st.t.speed = s →
      st.count = td - ((n : ℤ) + 1) →
      st.t.pitch + (n : ℚ) * s ≤ 9.42477 →
      flushCount (runLoop ⟨true, true, td, nc, sz, ms⟩ evs dts (n + 1) i st).1 = n + 1
      ∧ (runLoop ⟨true, true, td, nc, sz, ms⟩ evs dts (n + 1) i st).2.t.pitch
          = st.t.pitch + ((n : ℚ) + 1) * s
      ∧ (runLoop ⟨true, true, td, nc, sz, ms⟩ evs dts (n + 1) i st).2.count = td - 1 := by
  intro n
  induction n with
  | zero =>
    intro i st hsp hc hp
    have hnq : ¬((⟨true, true, td, nc, sz, ms⟩ : Cfg).image = false ∧ isQuit (evs i) = true) := by
      rintro ⟨h1, _⟩
      exact Bool.noConfusion h1
    have hcond : 9.42477 < st.t.pitch + st.t.speed
        ∨ (⟨true, true, td, nc, sz, ms⟩ : Cfg).todo - 1 = st.count := by
      refine Or.inr ?_
      rw [hc]
      push_cast
      ring
    have hb := loopBody_webify_break ⟨true, true, td, nc, sz, ms⟩ rfl st (evs i) (dts i) hnq hcond
    have hbrk : (loopBody ⟨true, true, td, nc, sz, ms⟩ st (evs i) (dts i)).2.2 = true := by
      rw [hb]
    have h1 := runLoop_break ⟨true, true, td, nc, sz, ms⟩ evs dts 0 i st hbrk
    rw [h1, hb]
    refine ⟨?_, ?_, ?_⟩
    · simp [flushCount_append, flushCount_cons, flushCount, Ev.isFlush, flushCount_draws]
    · show st.t.pitch + st.t.speed = st.t.pitch + ((0 : ℚ) + 1) * s
      rw [hsp]
      ring
    · show st.count = td - 1
      rw [hc]
      push_cast
      ring
  | succ n ih =>
    intro i st hsp hc hp
    have hnq : ¬((⟨true, true, td, nc, sz, ms⟩ : Cfg).image = false ∧ isQuit (evs i) = true) := by
      rintro ⟨h1, _⟩
      exact Bool.noConfusion h1
    have hone : (1 : ℚ) ≤ ((n : ℚ) + 1) := by
      have : (0 : ℚ) ≤ (n : ℚ) := Nat.cast_nonneg n
      linarith
    have hcond : ¬(9.42477 < st.t.pitch + st.t.speed
        ∨ (⟨true, true, td, nc, sz, ms⟩ : Cfg).todo - 1 = st.count) := by
      push_neg
      constructor
      · rw [hsp]
        have hcast : ((n + 1 : ℕ) : ℚ) = (n : ℚ) + 1 := by push_cast; ring
        rw [hcast] at hp
        nlinarith
      · show td - 1 ≠ st.count
        rw [hc]
        push_cast
        omega
    have hb := loopBody_webify_cont ⟨true, true, td, nc, sz, ms⟩ rfl st (evs i) (dts i) hnq hcond
    have hbrk : (loopBody ⟨true, true, td, nc, sz, ms⟩ st (evs i) (dts i)).2.2 = false := by
      rw [hb]
    have h1 := runLoop_cont ⟨true, true, td, nc, sz, ms⟩ evs dts (n + 1) i st hbrk
    have hsp2 : ((loopBody ⟨true, true, td, nc, sz, ms⟩ st (evs i) (dts i)).2.1).t.speed = s := by
      rw [hb]
      exact hsp
    have hc2 : ((loopBody ⟨true, true, td, nc, sz, ms⟩ st (evs i) (dts i)).2.1).count
        = td - ((n : ℤ) + 1) := by
      rw [hb]
      show st.count + 1 = td - ((n : ℤ) + 1)
      rw [hc]
      push_cast
      ring
    have hp2 : ((loopBody ⟨true, true, td, nc, sz, ms⟩ st (evs i) (dts i)).2.1).t.pitch
        + (n : ℚ) * s ≤ 9.42477 := by
      rw [hb]
      show st.t.pitch + st.t.speed + (n : ℚ) * s ≤ 9.42477
      rw [hsp]
      have hcast : ((n + 1 : ℕ) : ℚ) = (n : ℚ) + 1 := by push_cast; ring
      rw [hcast] at hp
      nlinarith
    have hih := ih (i + 1) ((loopBody ⟨true, true, td, nc, sz, ms⟩ st (evs i) (dts i)).2.1)
      hsp2 hc2 hp2
    rw [h1]
    refine ⟨?_, ?_, ?_⟩
    · rw [flushCount_append, hih.1, hb]
      have hone2 : flushCount
          ((if (⟨true, true, td, nc, sz, ms⟩ : Cfg).image then [] else [Ev.poll])
            ++ [Ev.buildRot st.t.yaw st.t.pitch st.t.roll,
                Ev.update (⟨true, true, td, nc, sz, ms⟩ : Cfg).size, Ev.clear]
            ++ List.map (fun m => Ev.draw m st.t.yaw st.t.pitch st.t.roll default_shader)
                (⟨true, true, td, nc, sz, ms⟩ : Cfg).meshes
            ++ [Ev.emitLine tickLine] ++ [Ev.flush (!(⟨true, true, td, nc, sz, ms⟩ : Cfg).noColor) true]
            ++ [Ev.emitLine sepLine]) = 1 := by
        simp [flushCount_append, flushCount_cons, flushCount, Ev.isFlush, flushCount_draws]
      rw [hone2]
      omega
    · rw [hih.2.1, hb]
      show st.t.pitch + st.t.speed + ((n : ℚ) + 1) * s
          = st.t.pitch + (((n + 1 : ℕ) : ℚ) + 1) * s
      rw [hsp]
      push_cast
      ring
    · exact hih.2.2

/-- C1, counterexample: with CLI pitch 7 (so initial pitch `7 + pi` after
the turntable offset) and a requested total of 10 frames, the export loop
emits exactly 1 frame and stops — the absolute-pitch test `> 9.42477`
fires on the very first tick — although the frame index is 0 (not 9) and
the accumulated pitch is only `2 pi / 10`, far from a full revolution.  The
termination test compares the absolute pitch, not the accumulated pitch,
against the threshold, so the claimed behaviour fails for nonzero initial
pitch. -/
theorem webify_quits_after_one_frame_with_offset_pitch :
    Opts.match_turntable ⟨[], false, 0, 7, 0, 1, SubCommand.image 10 20 none⟩
        = Except.ok ⟨0, 7 + f32pi, 0, 1⟩
    ∧ flushCount (runLoop ⟨true, true, 10, false, (0, 0), []⟩
        (fun _ => none) (fun _ => 1) 10 0
        ⟨webifyTurntable ⟨0, 7 + f32pi, 0, 1⟩ 10, Context.blank true, 0⟩).1 = 1
    ∧ (runLoop ⟨true, true, 10, false, (0, 0), []⟩
        (fun _ => none) (fun _ => 1) 10 0
        ⟨webifyTurntable ⟨0, 7 + f32pi, 0, 1⟩ 10, Context.blank true, 0⟩).2.count = 0
    ∧ (runLoop ⟨true, true, 10, false, (0, 0), []⟩
        (fun _ => none) (fun _ => 1) 10 0
        ⟨webifyTurntable ⟨0, 7 + f32pi, 0, 1⟩ 10, Context.blank true, 0⟩).2.t.pitch
      = 7 + f32pi + 2 * f32pi / 10 := by
  have hnq : ¬((⟨true, true, 10, false, (0, 0), []⟩ : Cfg).image = false
      ∧ isQuit (some Event.mouse) = true) := by
    rintro ⟨h1, _⟩
    exact Bool.noConfusion h1
  have hst : (⟨webifyTurntable ⟨0, 7 + f32pi, 0, 1⟩ 10, Context.blank true, 0⟩
      : LoopState).t.pitch = 7 + f32pi := rfl
  have hsp : (⟨webifyTurntable ⟨0, 7 + f32pi, 0, 1⟩ 10, Context.blank true, 0⟩
      : LoopState).t.speed = (2 * f32pi) * (1 / ((10 : ℕ) : ℚ)) := rfl
  have hc : (9.42477 : ℚ) < 7 + f32pi + (2 * f32pi) * (1 / ((10 : ℕ) : ℚ)) := by
    have hcast : ((10 : ℕ) : ℚ) = 10 := by push_cast; ring
    rw [hcast]
    norm_num [f32pi]
  have hcond : 9.42477 < (⟨webifyTurntable ⟨0, 7 + f32pi, 0, 1⟩ 10, Context.blank true, 0⟩
        : LoopState).t.pitch
        + (⟨webifyTurntable ⟨0, 7 + f32pi, 0, 1⟩ 10, Context.blank true, 0⟩ : LoopState).t.speed
      ∨ (⟨true, true, 10, false, (0, 0), []⟩ : Cfg).todo - 1
        = (⟨webifyTurntable ⟨0, 7 + f32pi, 0, 1⟩ 10, Context.blank true, 0⟩ : LoopState).count := by
    refine Or.inl ?_
    rw [hst, hsp]
    exact hc
  have hb := loopBody_webify_break ⟨true, true, 10, false, (0, 0), []⟩ rfl
    ⟨webifyTurntable ⟨0, 7 + f32pi, 0, 1⟩ 10, Context.blank true, 0⟩
    ((fun (_ : ℕ) => (none : Option Event)) 0) ((fun (_ : ℕ) => (1 : ℚ)) 0)
    (by rintro ⟨h1, _⟩; exact Bool.noConfusion h1) hcond
  have hbrk : (loopBody ⟨true, true, 10, false, (0, 0), []⟩
      ⟨webifyTurntable ⟨0, 7 + f32pi, 0, 1⟩ 10, Context.blank true, 0⟩
      ((fun (_ : ℕ) => (none : Option Event)) 0) ((fun (_ : ℕ) => (1 : ℚ)) 0)).2.2 = true := by
    rw [hb]
  have h1 := runLoop_break ⟨true, true, 10, false, (0, 0), []⟩
    (fun _ => none) (fun _ => 1) 9 0
    ⟨webifyTurntable ⟨0, 7 + f32pi, 0, 1⟩ 10, Context.blank true, 0⟩ hbrk
  refine ⟨rfl, ?_, ?_, ?_⟩
  · rw [h1, hb]
    simp [flushCount_append, flushCount_cons, flushCount, Ev.isFlush, flushCount_draws]
  · rw [h1, hb]
  · rw [h1, hb]
    show (7 + f32pi) + (2 * f32pi) * (1 / ((10 : ℕ) : ℚ)) = 7 + f32pi + 2 * f32pi / 10
    have hcast : ((10 : ℕ) : ℚ) = 10 := by push_cast; ring
    rw [hcast]
    ring

/-- C1 (amended): with a requested total of `N ≥ 1` frames the export
driver presets the speed to `2 pi / N` and advances the pitch by exactly
that speed on every tick; it terminates when the frame index reaches
`N - 1` or the absolute pitch (initial pitch plus accumulated rotation)
exceeds the constant `9.42477 ≈ 3 pi`, whichever first.  Provided the
initial pitch satisfies `pitch + (N - 1) * (2 pi / N) ≤ 9.42477` — true
for the default initial pitch `pi` (CLI pitch 0) whenever
`N ≤ 764000` or so — the pitch test never fires early, so the run emits
exactly `N` frames, advances the pitch by exactly `2 pi`, and terminates
at frame index `N - 1`. -/
theorem webify_export_run (N : ℕ) (hN : 1 ≤ N) (t0 : Turntable) (ctx : Context)
    (nc : Bool) (sz : ℕ × ℕ) (ms : List SimpleMesh)
    (evs : ℕ → Option Event) (dts : ℕ → ℚ)
    (hp : t0.pitch + ((N : ℚ) - 1) * (2 * f32pi / (N : ℚ)) ≤ 9.42477) :
    (webifyTurntable t0 N).speed = 2 * f32pi / (N : ℚ)
    ∧ flushCount (runLoop ⟨true, true, (N : ℤ), nc, sz, ms⟩ evs dts N 0
        ⟨webifyTurntable t0 N, ctx, 0⟩).1 = N
    ∧ (runLoop ⟨true, true, (N : ℤ), nc, sz, ms⟩ evs dts N 0
        ⟨webifyTurntable t0 N, ctx, 0⟩).2.t.pitch = t0.pitch + 2 * f32pi
    ∧ (runLoop ⟨true, true, (N : ℤ), nc, sz, ms⟩ evs dts N 0
        ⟨webifyTurntable t0 N, ctx, 0⟩).2.count = (N : ℤ) - 1 := by
  obtain ⟨n, rfl⟩ : ∃ n, N = n + 1 := ⟨N - 1, (Nat.succ_pred_eq_of_pos hN).symm⟩
  have hpi : (0 : ℚ) < f32pi := by norm_num [f32pi]
  have hnpos : (0 : ℚ) < ((n + 1 : ℕ) : ℚ) := by
    exact_mod_cast Nat.succ_pos n
  have hnne : ((n + 1 : ℕ) : ℚ) ≠ 0 := ne_of_gt hnpos
  have hs : 0 < (2 * f32pi) * (1 / ((n + 1 : ℕ) : ℚ)) := by positivity
  have hspeed : (webifyTurntable t0 (n + 1)).speed
      = (2 * f32pi) * (1 / ((n + 1 : ℕ) : ℚ)) := rfl
  have hcnt : (⟨webifyTurntable t0 (n + 1), ctx, 0⟩ : LoopState).count
      = ((n + 1 : ℕ) : ℤ) - ((n : ℤ) + 1) := by
    show (0 : ℤ) = ((n + 1 : ℕ) : ℤ) - ((n : ℤ) + 1)
    push_cast
    ring
  have hpitch : (⟨webifyTurntable t0 (n + 1), ctx, 0⟩ : LoopState).t.pitch
      + (n : ℚ) * ((2 * f32pi) * (1 / ((n + 1 : ℕ) : ℚ))) ≤ 9.42477 := by
    show t0.pitch + (n : ℚ) * ((2 * f32pi) * (1 / ((n + 1 : ℕ) : ℚ))) ≤ 9.42477
    have heq : (n : ℚ) * ((2 * f32pi) * (1 / ((n + 1 : ℕ) : ℚ)))
        = (((n + 1 : ℕ) : ℚ) - 1) * (2 * f32pi / ((n + 1 : ℕ) : ℚ)) := by
      push_cast
      ring
    rw [heq]
    exact hp
  have key := runLoop_webify_frames ((n + 1 : ℕ) : ℤ) nc sz ms evs dts
    ((2 * f32pi) * (1 / ((n + 1 : ℕ) : ℚ))) hs n 0
    ⟨webifyTurntable t0 (n + 1), ctx, 0⟩ hspeed hcnt hpitch
  refine ⟨?_, key.1, ?_, key.2.2⟩
  · rw [hspeed, mul_one_div]
  · rw [key.2.1]
    show t0.pitch + ((n : ℚ) + 1) * ((2 * f32pi) * (1 / ((n + 1 : ℕ) : ℚ)))
        = t0.pitch + 2 * f32pi
    have hc : ((n + 1 : ℕ) : ℚ) = (n : ℚ) + 1 := by push_cast; ring
    have hne2 : ((n : ℚ) + 1) ≠ 0 := by
      rw [hc] at hnne
      exact hnne
    have heq2 : ((n : ℚ) + 1) * ((2 * f32pi) * (1 / ((n + 1 : ℕ) : ℚ))) = 2 * f32pi := by
      rw [hc]
      field_simp
    rw [heq2]

/-- Witness for the export run: four requested frames with the default
initial pitch `pi`; the run flushes four frames, advances the pitch by a
full revolution, and ends at frame index 3. -/
theorem webify_export_run_witness :
    ((1 : ℕ) ≤ 4)
    ∧ ((⟨0, f32pi, 0, 1⟩ : Turntable).pitch
        + (((4 : ℕ) : ℚ) - 1) * (2 * f32pi / ((4 : ℕ) : ℚ)) ≤ 9.42477)
    ∧ (webifyTurntable ⟨0, f32pi, 0, 1⟩ 4).speed = 2 * f32pi / ((4 : ℕ) : ℚ)
    ∧ flushCount (runLoop ⟨true, true, ((4 : ℕ) : ℤ), false, (0, 0), []⟩
        (fun _ => none) (fun _ => 1) 4 0
        ⟨webifyTurntable ⟨0, f32pi, 0, 1⟩ 4, Context.blank true, 0⟩).1 = 4
    ∧ (runLoop ⟨true, true, ((4 : ℕ) : ℤ), false, (0, 0), []⟩
        (fun _ => none) (fun _ => 1) 4 0
        ⟨webifyTurntable ⟨0, f32pi, 0, 1⟩ 4, Context.blank true, 0⟩).2.t.pitch
      = (⟨0, f32pi, 0, 1⟩ : Turntable).pitch + 2 * f32pi
    ∧ (runLoop ⟨true, true, ((4 : ℕ) : ℤ), false, (0, 0), []⟩
        (fun _ => none) (fun _ => 1) 4 0
        ⟨webifyTurntable ⟨0, f32pi, 0, 1⟩ 4, Context.blank true, 0⟩).2.count
      = ((4 : ℕ) : ℤ) - 1 := by
  have hp : (⟨0, f32pi, 0, 1⟩ : Turntable).pitch
      + (((4 : ℕ) : ℚ) - 1) * (2 * f32pi / ((4 : ℕ) : ℚ)) ≤ 9.42477 := by
    show f32pi + (((4 : ℕ) : ℚ) - 1) * (2 * f32pi / ((4 : ℕ) : ℚ)) ≤ 9.42477
    have hcast : ((4 : ℕ) : ℚ) = 4 := by push_cast; ring
    rw [hcast]
    norm_num [f32pi]
  have h := webify_export_run 4 (by norm_num) ⟨0, f32pi, 0, 1⟩ (Context.blank true)
    false (0, 0) [] (fun _ => none) (fun _ => 1) hp
  exact ⟨by norm_num, hp, h.1, h.2.1, h.2.2.1, h.2.2.2⟩
